import Mathlib

/-!
Verification of the shared-state monitoring agent (`src/main.rs`).

The development shallow-embeds the parts of the program the claims talk
about:

* the simulation display (`MockDisplay` / `SimulationDisplay`, main.rs
  lines 46-158), with the character grid stored as a flat `List Char`
  exactly as the Rust code stores a `String`;
* the display renderer `update_display_content` (lines 364-429) as the
  list of draw calls it issues;
* the HTTP handlers (lines 486-594) as pure functions of the lock
  outcome and the stored state;
* the lock-acquisition traces of every task and handler, for the
  lock-nesting claim.

Machine floats (`f32`) are modelled as `ℚ`: every finite `f32` value is a
dyadic rational, comparisons of dyadic rationals agree with the `f32`
comparisons used by the code, and `{:.1}` formatting rounds the exact
value half-to-even, which `fmt1` reproduces.
-/

set_option maxRecDepth 100000

namespace PiZero

/-- The `Rgb565` color constants used by the renderer (main.rs uses
`Rgb565::WHITE`, `RED`, `GREEN`, `BLACK`). The simulation backend accepts
and ignores the color. -/
inductive Color where
  | white
  | red
  | green
  | black
deriving DecidableEq

/-- `SensorData` (main.rs lines 25-30). `f32` fields are modelled as `ℚ`
(see the file comment), `u64` as `ℕ`. -/
structure SensorData where
  temperature : ℚ
  humidity : ℚ
  timestamp : ℕ
deriving DecidableEq

/-! ### MockDisplay (main.rs lines 46-101) -/

/-- `MockDisplay` (main.rs lines 46-51): a `String` buffer plus the
grid dimensions. The content string is modelled as a `List Char`. -/
structure MockDisplay where
  content : List Char
  width : ℕ
  height : ℕ
deriving DecidableEq

/-- `MockDisplay::new` (main.rs lines 55-61): empty content. -/
def MockDisplay.new (width height : ℕ) : MockDisplay :=
  ⟨[], width, height⟩

/-- `MockDisplay::clear` (main.rs lines 63-70): rebuild the content as a
bordered blank frame. `self.width as usize - 2` is `usize` subtraction;
the program only ever constructs the display with `width = 50`,
`height = 15` (line 200), where `ℕ` subtraction agrees. -/
def MockDisplay.clear (d : MockDisplay) : MockDisplay :=
  { d with content :=
      ('╔' :: List.replicate (d.width - 2) '═' ++ ['╗', '\n'])
      ++ (List.replicate (d.height - 2)
            ('║' :: List.replicate (d.width - 2) ' ' ++ ['║', '\n'])).flatten
      ++ ('╚' :: List.replicate (d.width - 2) '═' ++ ['╝', '\n']) }

/-- Rust's `str::lines()` used by `add_text` (main.rs line 74): split at
`'\n'` terminators, also accepting `"\r\n"` (whose `'\r'` is stripped);
the final segment is kept only if non-empty. -/
def rustLines : List Char → List (List Char)
  | [] => []
  | [c] => if c = '\n' then [[]] else [[c]]
  | c :: c2 :: cs =>
    if c = '\n' then [] :: rustLines (c2 :: cs)
    else if c = '\r' ∧ c2 = '\n' then [] :: rustLines cs
    else
      match rustLines (c2 :: cs) with
      | [] => [[c]]
      | l :: ls => (c :: l) :: ls

/-- The reconstruction loop of `add_text` (main.rs lines 89-94): each
processed line is appended followed by `'\n'`. -/
def rebuild : List (List Char) → List Char
  | [] => []
  | l :: ls => l ++ '\n' :: rebuild ls

/-- The inner character-writing loop of `add_text` (main.rs lines 83-87):
`for (j, ch) in text.chars().enumerate() { if start_pos + j <
chars.len() - 1 { chars[start_pos + j] = ch } }`. `pos` plays
`start_pos + j`; `List.set` models the in-place assignment. -/
def writeFrom : List Char → ℕ → List Char → List Char
  | chars, _, [] => chars
  | chars, pos, ch :: rest =>
    writeFrom (if pos < chars.length - 1 then chars.set pos ch else chars)
      (pos + 1) rest

/-- The per-row body of `add_text`'s loop (main.rs lines 77-93): the row
whose index equals `y` (with `y < height`) gets `text` written starting
at column `x + 1` (accounting for the border), guarded by
`start_pos < chars.len()`. -/
def addTextRow (height : ℕ) (text : List Char) (x y : ℕ)
    (i : ℕ) (line : List Char) : List Char :=
  if i = y ∧ y < height then
    if x + 1 < line.length then writeFrom line (x + 1) text else line
  else line

/-- `MockDisplay::add_text` (main.rs lines 72-96): split the content into
lines, rewrite the target row, and reassemble with `'\n'` after every
line. -/
def MockDisplay.add_text (d : MockDisplay) (text : List Char) (x y : ℕ) :
    MockDisplay :=
  { d with content :=
      rebuild ((rustLines d.content).enum.map
        (fun p => addTextRow d.height text x y p.1 p.2)) }

/-- `MockDisplay::get_content` (main.rs lines 98-100). -/
def MockDisplay.get_content (d : MockDisplay) : List Char :=
  d.content

/-! ### SimulationDisplay and the Display trait object (main.rs 103-158) -/

/-- `SimulationDisplay` (main.rs lines 138-141). -/
structure SimulationDisplay where
  mock_display : MockDisplay
deriving DecidableEq

/-- `SimulationDisplay::clear` (main.rs lines 145-148). -/
def SimulationDisplay.clear (s : SimulationDisplay) : SimulationDisplay :=
  ⟨s.mock_display.clear⟩

/-- `SimulationDisplay::draw_text` (main.rs lines 150-153): scale pixel
coordinates down by the 10×20 glyph size, ignore the color. -/
def SimulationDisplay.draw_text (s : SimulationDisplay) (text : List Char)
    (x y : ℕ) (_color : Color) : SimulationDisplay :=
  ⟨s.mock_display.add_text text (x / 10) (y / 20)⟩

/-- `SimulationDisplay::get_display_content` (main.rs lines 155-157). -/
def SimulationDisplay.get_display_content (s : SimulationDisplay) :
    Option (List Char) :=
  some s.mock_display.get_content

/-- The `Box<dyn Display>` trait object stored in `AppState.display`
(main.rs line 168): either the hardware backend (whose
`get_display_content` is always `None`, line 132-134) or the simulation
backend. -/
inductive DisplayObj where
  | hardware
  | simulation (sim : SimulationDisplay)
deriving DecidableEq

/-- `Display::get_display_content` dispatched through the trait object. -/
def DisplayObj.get_display_content : DisplayObj → Option (List Char)
  | .hardware => none
  | .simulation s => s.get_display_content

/-! ### The display renderer (main.rs lines 364-429) -/

/-- Decimal digits of a natural number, most significant first —
Rust's `{}` formatting of an unsigned integer. -/
def natDigits (n : ℕ) : List Char :=
  if n < 10 then [Nat.digitChar n]
  else natDigits (n / 10) ++ [Nat.digitChar (n % 10)]
termination_by n
decreasing_by simp_wf; exact Nat.div_lt_self (by omega) (by omega)

/-- Round to the nearest integer, ties to even — the rounding applied by
Rust's float formatting to the exact decimal value. -/
def roundHalfEven (q : ℚ) : ℤ :=
  if q - ⌊q⌋ < 1/2 then ⌊q⌋
  else if (1 : ℚ)/2 < q - ⌊q⌋ then ⌊q⌋ + 1
  else if ⌊q⌋ % 2 = 0 then ⌊q⌋ else ⌊q⌋ + 1

/-- Rust's `{:.1}` formatting of an `f32`, on the rational model: round
the magnitude to one decimal (ties to even) and print sign, integer
digits, `'.'`, and one fractional digit. -/
def fmt1 (q : ℚ) : List Char :=
  let n : ℕ := (roundHalfEven (|q| * 10)).toNat
  (if q < 0 then ['-'] else [])
    ++ natDigits (n / 10) ++ ['.', Nat.digitChar (n % 10)]

/-- One draw call issued against the `Display` trait:
`draw_text(text, x, y, color)`. -/
structure DrawCall where
  text : List Char
  x : ℕ
  y : ℕ
  color : Color
deriving DecidableEq

/-- The deterministic sequence of draw calls issued by
`update_display_content` (main.rs lines 364-413) after the initial
`clear`, as a function of the sensor snapshot, the uptime seconds and the
LED status it reads. -/
def renderCalls (sensor : Option SensorData) (uptime : ℕ)
    (led_status : Bool) : List DrawCall :=
  [⟨"Hello World!".data, 10, 30, .white⟩,
   ⟨"Pi Zero Monitor".data, 10, 60, .white⟩]
  ++ (match sensor with
      | some data =>
        [⟨"Temp: ".data ++ fmt1 data.temperature ++ "C".data, 10, 90, .white⟩,
         ⟨"Humidity: ".data ++ fmt1 data.humidity ++ "%".data, 10, 120, .white⟩]
        ++ (if 30 < data.temperature
            then [⟨"HIGH TEMP!".data, 10, 150, .red⟩] else [])
      | none => [⟨"No sensor data".data, 10, 90, .white⟩])
  ++ [⟨"Uptime: ".data ++ natDigits uptime ++ "s".data, 10, 180, .white⟩,
      ⟨"LED".data, 10, 210, if led_status then .green else .red⟩]

/-- `update_display_content` executed against the simulation backend:
`clear` (line 370) followed by every draw call in order (the simulation
backend never fails, so no call aborts the sequence). -/
def update_display_sim (s : SimulationDisplay) (sensor : Option SensorData)
    (uptime : ℕ) (led_status : Bool) : SimulationDisplay :=
  (renderCalls sensor uptime led_status).foldl
    (fun d c => d.draw_text c.text c.x c.y c.color) s.clear

/-! ### HTTP handlers (main.rs lines 486-594) -/

/-- Build mode of the binary: the `hardware` / `simulation` cargo
features (mutually exclusive `#[cfg]` blocks in main.rs). -/
inductive Mode where
  | hardware
  | simulation
deriving DecidableEq

/-- The JSON body answered by `control_led_handler`:
either `{success, led_state}` or `{success, error}`. -/
structure LedResponse where
  success : Bool
  led_state : Option Bool
  error : Option (List Char)
deriving DecidableEq

/-- `control_led_handler` (main.rs lines 540-575) as a function of the
build mode, the outcome of the LED-field lock acquisition, and the
requested state. Returns the JSON response together with the value
written to the LED field (`none` when nothing was written). In hardware
mode a failed lock returns the error object early (lines 554-560); in
simulation mode a failed lock merely skips the write (lines 565-569) and
execution falls through to the success response (lines 571-574). -/
def control_led_handler (mode : Mode) (lockOk : Bool) (reqState : Bool) :
    LedResponse × Option Bool :=
  match mode with
  | .hardware =>
    if lockOk then (⟨true, some reqState, none⟩, some reqState)
    else (⟨false, none, some "Failed to access GPIO".data⟩, none)
  | .simulation =>
    if lockOk then (⟨true, some reqState, none⟩, some reqState)
    else (⟨true, some reqState, none⟩, none)

/-- The JSON body answered by `get_sensor_handler`: either the reading,
or the `{"error": "No sensor data available"}` object. -/
inductive SensorResponse where
  | reading (d : SensorData)
  | noData
deriving DecidableEq

/-- `get_sensor_handler` (main.rs lines 525-538): a failed lock is
treated like an absent reading (the `else { None }` branch at line 529). -/
def get_sensor_handler (lockOk : Bool) (stored : Option SensorData) :
    SensorResponse :=
  match (if lockOk then stored else none) with
  | some d => .reading d
  | none => .noData

/-- The JSON body answered by `get_display_handler`. -/
structure DisplayResponse where
  display_content : List Char
  mode : List Char
deriving DecidableEq

/-- `get_display_handler` (main.rs lines 577-594): read the display
field (a failed lock yields `None`, line 581); a `Some` content string
answers mode `"simulation"`, a `None` answers mode `"hardware"` with the
fixed not-available string. -/
def get_display_handler (lockOk : Bool) (display : Option DisplayObj) :
    DisplayResponse :=
  match (if lockOk then display.bind DisplayObj.get_display_content
         else none) with
  | some content => ⟨content, "simulation".data⟩
  | none => ⟨"Hardware mode - content not available via API".data,
             "hardware".data⟩

/-! ### Lock-acquisition traces (claim C1)

Each task tick and each handler acquires and releases the per-field
mutexes in a fixed program order; the traces below transcribe those
orders from the source. A `MutexGuard` obtained in
`if let Ok(g) = field.lock() { ... }` is dropped at the end of that
expression. -/

/-- The three independently locked fields of `AppState`
(main.rs lines 161-170). The LED field is `led_pin` (hardware) or
`led_status` (simulation); both builds lock it at the same places. -/
inductive LockField where
  | sensor
  | led
  | display
deriving DecidableEq

/-- A lock acquisition or release event. -/
inductive LockEv where
  | acq (f : LockField)
  | rel (f : LockField)
deriving DecidableEq

/-- Fold over a trace keeping the multiset of held locks and the maximum
number simultaneously held. -/
def maxHeldAux : List LockField → ℕ → List LockEv → ℕ
  | _, m, [] => m
  | held, m, .acq f :: es =>
    maxHeldAux (f :: held) (max m (f :: held).length) es
  | held, m, .rel f :: es => maxHeldAux (held.erase f) m es

/-- Maximum number of locks simultaneously held along a trace. -/
def maxHeld (t : List LockEv) : ℕ :=
  maxHeldAux [] 0 t

/-- One tick of `sensor_reading_task` (main.rs lines 275-306): locks
`sensor_data` at line 295, releases it at the end of the `if let`. -/
def sensorTaskTrace : List LockEv :=
  [.acq .sensor, .rel .sensor]

/-- One tick of `led_task` (main.rs lines 309-336): locks the LED field
at line 318/329. -/
def ledTaskTrace : List LockEv :=
  [.acq .led, .rel .led]

/-- One tick of `display_update_task` (main.rs lines 339-361) including
the `update_display_content` call (lines 364-413) made at line 355 while
the display lock (line 353) is still held: `update_display_content`
acquires the LED field at line 399/406 inside that region. -/
def displayUpdateTaskTrace : List LockEv :=
  [.acq .sensor, .rel .sensor,
   .acq .display, .acq .led, .rel .led, .rel .display]

/-- `get_status_handler` (main.rs lines 486-523): LED lock (490/497),
then sensor lock (503), then display lock (509), each released before
the next is taken. -/
def statusHandlerTrace : List LockEv :=
  [.acq .led, .rel .led, .acq .sensor, .rel .sensor,
   .acq .display, .rel .display]

/-- `get_sensor_handler` (main.rs lines 525-538): sensor lock only. -/
def sensorHandlerTrace : List LockEv :=
  [.acq .sensor, .rel .sensor]

/-- `control_led_handler` (main.rs lines 540-575): LED lock only. -/
def ledHandlerTrace : List LockEv :=
  [.acq .led, .rel .led]

/-- `get_display_handler` (main.rs lines 577-594): display lock only. -/
def displayHandlerTrace : List LockEv :=
  [.acq .display, .rel .display]

/-! ### Derived predicates and operation words used by the claims -/

/-- A string with exactly one decimal place: everything before a single
`'.'` is dot-free, and exactly one character — a digit — follows it. -/
def OneDecimal (s : List Char) : Prop :=
  ∃ pre d, s = pre ++ ['.', d] ∧ '.' ∉ pre ∧ d.isDigit = true

/-- Well-formedness of a simulated grid: the content is a fixed point of
the split-and-reassemble loop of `add_text` (it is exactly its lines,
each terminated by `'\n'`), there are `height` lines, every line is
`width` characters, and no line ends in `'\r'`. This holds for every
state the program's display passes through after its first `clear`. -/
def Tidy (d : MockDisplay) : Prop :=
  d.content = rebuild (rustLines d.content)
  ∧ (rustLines d.content).length = d.height
  ∧ ∀ l ∈ rustLines d.content,
      l.length = d.width ∧ l[l.length - 1]? ≠ some '\r'

instance (d : MockDisplay) : Decidable (Tidy d) := by
  unfold Tidy
  infer_instance

/-- The line decomposition of a display's content string
(`content.lines()` in the Rust code). -/
def gridLines (d : MockDisplay) : List (List Char) :=
  rustLines d.content

/-- An operation of the `Display` capability interface that mutates the
simulation backend: `clear`, or `draw_text` with arbitrary text, pixel
coordinates and color. -/
inductive DispOp where
  | clearOp
  | draw (text : List Char) (x y : ℕ) (color : Color)

/-- Apply one display operation to the simulation backend. -/
def applyOp (s : SimulationDisplay) : DispOp → SimulationDisplay
  | .clearOp => s.clear
  | .draw t x y c => s.draw_text t x y c

/-- Apply a sequence of display operations, oldest first. -/
def applyOps (s : SimulationDisplay) (ops : List DispOp) :
    SimulationDisplay :=
  ops.foldl applyOp s

/-! ### Helper lemmas -/

lemma digitChar_isDigit {n : ℕ} (h : n < 10) :
    (Nat.digitChar n).isDigit = true := by
  interval_cases n <;> decide

lemma natDigits_isDigit (n : ℕ) : ∀ c ∈ natDigits n, c.isDigit = true := by
  induction n using Nat.strong_induction_on with
  | _ n ih =>
    rw [natDigits]
    split
    · intro c hc
      simp only [List.mem_singleton] at hc
      subst hc
      exact digitChar_isDigit (by omega)
    · intro c hc
      rcases List.mem_append.1 hc with h1 | h2
      · exact ih (n / 10) (Nat.div_lt_self (by omega) (by omega)) c h1
      · simp only [List.mem_singleton] at h2
        subst h2
        exact digitChar_isDigit (Nat.mod_lt _ (by omega))

lemma dot_not_mem_natDigits (n : ℕ) : '.' ∉ natDigits n := by
  intro h
  have := natDigits_isDigit n '.' h
  exact absurd this (by decide)

lemma oneDecimal_fmt1 (q : ℚ) : OneDecimal (fmt1 q) := by
  refine ⟨(if q < 0 then ['-'] else [])
      ++ natDigits ((roundHalfEven (|q| * 10)).toNat / 10),
    Nat.digitChar ((roundHalfEven (|q| * 10)).toNat % 10), ?_, ?_, ?_⟩
  · simp [fmt1]
  · intro h
    rcases List.mem_append.1 h with h1 | h2
    · split at h1 <;> simp at h1
    · exact dot_not_mem_natDigits _ h2
  · exact digitChar_isDigit (Nat.mod_lt _ (by omega))

/-! #### Splitting / reassembly lemmas for the simulated grid -/

lemma rustLines_nl_cons (s : List Char) :
    rustLines ('\n' :: s) = [] :: rustLines s := by
  cases s <;> simp [rustLines]

lemma rustLines_crlf (cs : List Char) :
    rustLines ('\r' :: '\n' :: cs) = [] :: rustLines cs := by
  simp [rustLines]

lemma rustLines_cons_of_nil {c : Char} {cs : List Char} (hc : c ≠ '\n')
    (hcr : ¬(c = '\r' ∧ cs.head? = some '\n'))
    (h : rustLines cs = []) : rustLines (c :: cs) = [[c]] := by
  cases cs with
  | nil => simp [rustLines, hc]
  | cons c2 cs2 =>
    have hcr' : ¬(c = '\r' ∧ c2 = '\n') := by simpa using hcr
    simp only [rustLines, if_neg hc, if_neg hcr']
    rw [h]

lemma rustLines_cons_of_cons {c : Char} {cs : List Char}
    {l : List Char} {ls : List (List Char)} (hc : c ≠ '\n')
    (hcr : ¬(c = '\r' ∧ cs.head? = some '\n'))
    (h : rustLines cs = l :: ls) :
    rustLines (c :: cs) = (c :: l) :: ls := by
  cases cs with
  | nil => simp [rustLines] at h
  | cons c2 cs2 =>
    have hcr' : ¬(c = '\r' ∧ c2 = '\n') := by simpa using hcr
    simp only [rustLines, if_neg hc, if_neg hcr']
    rw [h]

lemma rustLines_ne_nil : ∀ {s : List Char}, s ≠ [] → rustLines s ≠ []
  | [], h => absurd rfl h
  | [c], _ => by
    by_cases hc : c = '\n'
    · subst hc; decide
    · simp [rustLines, hc]
  | c :: c2 :: cs, _ => by
    by_cases hc : c = '\n'
    · subst hc
      rw [rustLines_nl_cons]
      simp
    · by_cases hcr : c = '\r' ∧ (c2 :: cs).head? = some '\n'
      · obtain ⟨rfl, hh⟩ := hcr
        simp only [List.head?_cons, Option.some.injEq] at hh
        subst hh
        rw [rustLines_crlf]
        simp
      · cases h2 : rustLines (c2 :: cs) with
        | nil => rw [rustLines_cons_of_nil hc hcr h2]; simp
        | cons l ls => rw [rustLines_cons_of_cons hc hcr h2]; simp

lemma mem_rustLines_no_nl :
    ∀ (s : List Char), ∀ l ∈ rustLines s, '\n' ∉ l
  | [] => by simp [rustLines]
  | c :: cs => by
    by_cases hc : c = '\n'
    · subst hc
      rw [rustLines_nl_cons]
      intro l hl
      rcases List.mem_cons.1 hl with rfl | hl'
      · simp
      · exact mem_rustLines_no_nl cs l hl'
    · by_cases hcr : c = '\r' ∧ cs.head? = some '\n'
      · obtain ⟨rfl, hh⟩ := hcr
        cases cs with
        | nil => simp at hh
        | cons d cs' =>
          simp only [List.head?_cons, Option.some.injEq] at hh
          subst hh
          rw [rustLines_crlf]
          intro l hl
          rcases List.mem_cons.1 hl with rfl | hl'
          · simp
          · exact mem_rustLines_no_nl cs' l hl'
      · intro l hl
        cases h2 : rustLines cs with
        | nil =>
          rw [rustLines_cons_of_nil hc hcr h2] at hl
          simp only [List.mem_singleton] at hl
          subst hl
          intro hm
          simp only [List.mem_singleton] at hm
          exact hc hm.symm
        | cons l0 ls =>
          rw [rustLines_cons_of_cons hc hcr h2] at hl
          rcases List.mem_cons.1 hl with rfl | hl'
          · intro hmem
            rcases List.mem_cons.1 hmem with h1 | h2'
            · exact hc h1.symm
            · exact mem_rustLines_no_nl cs l0
                (by rw [h2]; exact List.mem_cons_self _ _) h2'
          · exact mem_rustLines_no_nl cs l
              (by rw [h2]; exact List.mem_cons.2 (Or.inr hl'))

lemma rustLines_append :
    ∀ (l rest : List Char), '\n' ∉ l → l[l.length - 1]? ≠ some '\r' →
      rustLines (l ++ '\n' :: rest) = l :: rustLines rest
  | [], rest, _, _ => by
    simpa using rustLines_nl_cons rest
  | [c], rest, h1, h2 => by
    have hc : c ≠ '\n' := fun h => h1 (by simp [h])
    have hcr : c ≠ '\r' := by simpa using h2
    rw [List.singleton_append]
    exact rustLines_cons_of_cons hc (by simp [hcr]) (rustLines_nl_cons rest)
  | c :: d :: l'', rest, h1, h2 => by
    have hc : c ≠ '\n' := fun h => h1 (h ▸ List.mem_cons_self _ _)
    have hd : d ≠ '\n' := fun h => h1 (by simp [h])
    have ih := rustLines_append (d :: l'') rest
      (fun h => h1 (List.mem_cons.2 (Or.inr h)))
      (by simpa using h2)
    rw [List.cons_append]
    exact rustLines_cons_of_cons hc (by simp [hd]) ih

lemma rustLines_rebuild :
    ∀ ls : List (List Char),
      (∀ l ∈ ls, '\n' ∉ l ∧ l[l.length - 1]? ≠ some '\r') →
      rustLines (rebuild ls) = ls
  | [], _ => rfl
  | l :: ls, h => by
    rw [rebuild,
      rustLines_append l _ (h l (List.mem_cons_self _ _)).1
        (h l (List.mem_cons_self _ _)).2,
      rustLines_rebuild ls (fun a ha => h a (List.mem_cons.2 (Or.inr ha)))]

lemma writeFrom_length :
    ∀ (txt chars : List Char) (pos : ℕ),
      (writeFrom chars pos txt).length = chars.length
  | [], _, _ => rfl
  | ch :: rest, chars, pos => by
    rw [writeFrom, writeFrom_length rest]
    split <;> simp

lemma writeFrom_getElem? :
    ∀ (txt chars : List Char) (pos i : ℕ),
      (writeFrom chars pos txt)[i]? =
        if pos ≤ i ∧ i < pos + txt.length ∧ i + 1 < chars.length
        then txt[i - pos]? else chars[i]?
  | [], chars, pos, i => by
    rw [writeFrom, if_neg (by simp only [List.length_nil]; omega)]
  | ch :: rest, chars, pos, i => by
    rw [writeFrom, writeFrom_getElem? rest]
    have hlen : (if pos < chars.length - 1 then chars.set pos ch
        else chars).length = chars.length := by
      split <;> simp
    rw [hlen]
    simp only [List.length_cons]
    by_cases hip : i = pos
    · subst hip
      rw [if_neg (by omega)]
      by_cases hw : i < chars.length - 1
      · rw [if_pos hw, if_pos (show i ≤ i ∧ i < i + (rest.length + 1)
            ∧ i + 1 < chars.length from ⟨le_rfl, by omega, by omega⟩),
          List.getElem?_set_eq_of_lt ch (by omega)]
        simp
      · rw [if_neg hw, if_neg (by omega)]
    · by_cases hcond : pos + 1 ≤ i ∧ i < pos + 1 + rest.length
          ∧ i + 1 < chars.length
      · rw [if_pos hcond, if_pos (show pos ≤ i ∧ i < pos + (rest.length + 1)
            ∧ i + 1 < chars.length from ⟨by omega, by omega, hcond.2.2⟩)]
        have hsub : i - pos = (i - (pos + 1)) + 1 := by omega
        rw [hsub]
        simp
      · rw [if_neg hcond]
        have hr : ¬(pos ≤ i ∧ i < pos + (rest.length + 1)
            ∧ i + 1 < chars.length) := by omega
        rw [if_neg hr]
        split
        · exact List.getElem?_set_ne (fun h => hip h.symm)
        · rfl

lemma writeFrom_of_ge :
    ∀ (txt chars : List Char) (pos : ℕ), chars.length - 1 ≤ pos →
      writeFrom chars pos txt = chars
  | [], _, _, _ => rfl
  | ch :: rest, chars, pos, h => by
    rw [writeFrom, if_neg (by omega)]
    exact writeFrom_of_ge rest chars (pos + 1) (by omega)

lemma mem_writeFrom :
    ∀ (txt chars : List Char) (pos : ℕ) (c : Char),
      c ∈ writeFrom chars pos txt → c ∈ chars ∨ c ∈ txt
  | [], _, _, _, h => Or.inl h
  | ch :: rest, chars, pos, c, h => by
    rw [writeFrom] at h
    rcases mem_writeFrom rest _ (pos + 1) c h with h1 | h2
    · split at h1
      · rcases List.mem_or_eq_of_mem_set h1 with h3 | h3
        · exact Or.inl h3
        · exact Or.inr (h3 ▸ List.mem_cons_self _ _)
      · exact Or.inl h1
    · exact Or.inr (List.mem_cons.2 (Or.inr h2))

lemma getElem?_enum_map {α β : Type _} (f : ℕ × α → β) (ls : List α)
    (i : ℕ) :
    (ls.enum.map f)[i]? = (ls[i]?).map (fun a => f (i, a)) := by
  rw [List.getElem?_map, List.getElem?_enum]
  cases ls[i]? <;> rfl

lemma length_enum_map {α β : Type _} (f : ℕ × α → β) (ls : List α) :
    (ls.enum.map f).length = ls.length := by
  rw [List.length_map, List.enum_length]

lemma addTextRow_no_nl (height : ℕ) {text : List Char} (hn : '\n' ∉ text)
    (x y i : ℕ) {l : List Char} (hl : '\n' ∉ l) :
    '\n' ∉ addTextRow height text x y i l := by
  unfold addTextRow
  split
  · split
    · intro hm
      rcases mem_writeFrom text l (x + 1) '\n' hm with h1 | h2
      · exact hl h1
      · exact hn h2
    · exact hl
  · exact hl

lemma addTextRow_length (height : ℕ) (text : List Char) (x y i : ℕ)
    (l : List Char) :
    (addTextRow height text x y i l).length = l.length := by
  unfold addTextRow
  split
  · split
    · exact writeFrom_length text l (x + 1)
    · rfl
  · rfl

lemma addTextRow_last (height : ℕ) (text : List Char) (x y i : ℕ)
    (l : List Char) :
    (addTextRow height text x y i l)[(addTextRow height text x y i l).length
      - 1]? = l[l.length - 1]? := by
  rw [addTextRow_length]
  unfold addTextRow
  split
  · split
    · rw [writeFrom_getElem?, if_neg (by omega)]
    · rfl
  · rfl

/-- Effect of `add_text` on the line decomposition of a grid whose lines
do not end in `'\r'`, drawing a newline-free text: exactly the target
row is rewritten. -/
lemma rustLines_add_text (d : MockDisplay)
    (hcr : ∀ l ∈ rustLines d.content, l[l.length - 1]? ≠ some '\r')
    {text : List Char} (hn : '\n' ∉ text) (x y : ℕ) :
    rustLines (d.add_text text x y).content
      = (rustLines d.content).enum.map
          (fun p => addTextRow d.height text x y p.1 p.2) := by
  show rustLines (rebuild _) = _
  apply rustLines_rebuild
  intro l' hl'
  rcases List.mem_map.1 hl' with ⟨p, hp, rfl⟩
  have hmem : p.2 ∈ rustLines d.content := by
    have h := List.mem_enum_iff_getElem?.1 hp
    exact List.getElem?_mem h
  refine ⟨addTextRow_no_nl _ hn _ _ _
      (mem_rustLines_no_nl _ _ hmem), ?_⟩
  rw [addTextRow_last]
  exact hcr _ hmem

/-! ### Claim C1 — lock nesting -/

/-- C1, counterexample: the claim says at most one field lock is ever
held at a time, in particular on the display-refresh path; but one tick
of `display_update_task` holds two locks simultaneously (the LED lock is
acquired at main.rs line 399/406 inside `update_display_content`, while
the display lock taken at line 353 is still held). -/
theorem display_refresh_holds_two_locks :
    ¬ maxHeld displayUpdateTaskTrace ≤ 1 := by decide

/-- C1, amended: every task tick and HTTP handler except the
display-refresh path holds at most one of the sensor, LED and display
locks at a time; the display-refresh path acquires the LED lock while
the display lock is held, holding two locks at its peak (and never
more). -/
theorem lock_nesting_per_operation :
    maxHeld sensorTaskTrace ≤ 1 ∧ maxHeld ledTaskTrace ≤ 1
    ∧ maxHeld statusHandlerTrace ≤ 1 ∧ maxHeld sensorHandlerTrace ≤ 1
    ∧ maxHeld ledHandlerTrace ≤ 1 ∧ maxHeld displayHandlerTrace ≤ 1
    ∧ maxHeld displayUpdateTaskTrace = 2 := by decide

/-! ### Claim C2 — POST /led responses -/

/-- C2, counterexample: in simulation mode a failed LED-lock acquisition
still answers `{success: true, led_state}` with no error field (and
without writing the LED state), contradicting the claimed
`{success: false, error}` response. -/
theorem control_led_sim_lock_failure_reports_success :
    (control_led_handler .simulation false true).1.success = true
    ∧ (control_led_handler .simulation false true).1.error = none
    ∧ (control_led_handler .simulation false true).2 = none := by decide

/-- C2, amended: in hardware mode, POST /led answers
`{success: false, error}` exactly when the LED lock acquisition fails
and `{success: true, led_state}` otherwise; in simulation mode it always
answers `{success: true, led_state}`, even when the lock acquisition
fails and the write is skipped. -/
theorem control_led_response_spec (req lockOk : Bool) :
    control_led_handler .hardware true req
      = (⟨true, some req, none⟩, some req)
    ∧ control_led_handler .hardware false req
      = (⟨false, none, some "Failed to access GPIO".data⟩, none)
    ∧ control_led_handler .simulation lockOk req
      = (⟨true, some req, none⟩, if lockOk then some req else none) := by
  refine ⟨rfl, rfl, ?_⟩
  cases lockOk <;> rfl

/-! ### Claim C8 — GET /sensor with no data -/

/-- C8: while the stored sensor field is `None` (in particular before the
first sampling cycle) GET /sensor answers the explicit
`{"error": "No sensor data available"}` object, whatever the lock
outcome; when a reading is present (and its lock is acquired) the
response is that reading serialized. -/
theorem sensor_handler_no_data :
    (∀ lockOk : Bool, get_sensor_handler lockOk none = .noData)
    ∧ ∀ d : SensorData, get_sensor_handler true (some d) = .reading d :=
  ⟨fun lockOk => by cases lockOk <;> rfl, fun _ => rfl⟩

/-! ### Claim C6 — high-temperature warning -/

/-- C6: the renderer issues the `"HIGH TEMP!"` warning draw call if and
only if the snapshot's temperature is strictly greater than 30.0
(main.rs lines 385-387). -/
theorem high_temp_warning_iff (data : SensorData) (u : ℕ) (led : Bool) :
    DrawCall.mk "HIGH TEMP!".data 10 150 .red ∈ renderCalls (some data) u led
      ↔ 30 < data.temperature := by
  by_cases h : 30 < data.temperature <;>
    simp [renderCalls, h, DrawCall.mk.injEq]

/-! ### Claim C9 — one decimal place -/

/-- C9: for every sensor snapshot, the renderer draws the temperature as
`"Temp: <t>C"` and the humidity as `"Humidity: <h>%"` where both numbers
are formatted with exactly one digit after the decimal point
(main.rs lines 378-382, `{:.1}`). -/
theorem renderer_one_decimal_place (data : SensorData) (u : ℕ)
    (led : Bool) :
    DrawCall.mk ("Temp: ".data ++ fmt1 data.temperature ++ "C".data)
        10 90 .white ∈ renderCalls (some data) u led
    ∧ DrawCall.mk ("Humidity: ".data ++ fmt1 data.humidity ++ "%".data)
        10 120 .white ∈ renderCalls (some data) u led
    ∧ OneDecimal (fmt1 data.temperature)
    ∧ OneDecimal (fmt1 data.humidity) := by
  refine ⟨?_, ?_, oneDecimal_fmt1 _, oneDecimal_fmt1 _⟩ <;>
    simp [renderCalls]

/-! ### Claim C7 — draw_text beyond the interior width -/

/-- C7: on a well-formed 50-column grid (`Tidy`, which holds for every
state the program's display reaches), a `draw_text` whose starting
column after scaling (`x / 10`) lies at or beyond the interior width of
48 cells leaves the display completely unchanged: the guarded writes
(main.rs lines 82-88) all miss, and the reassembly reproduces the
content byte for byte. The Lean model is total, so the call also
performs no out-of-range access. -/
theorem draw_text_out_of_range_no_write (d : MockDisplay) (hT : Tidy d)
    (hw : d.width = 50) (text : List Char) (x y : ℕ) (color : Color)
    (hx : 480 ≤ x) :
    (SimulationDisplay.mk d).draw_text text x y color
      = SimulationDisplay.mk d := by
  obtain ⟨hfix, hlen, hrows⟩ := hT
  have hx10 : 48 ≤ x / 10 := by
    calc 48 = 480 / 10 := rfl
    _ ≤ x / 10 := Nat.div_le_div_right hx
  suffices h : d.add_text text (x / 10) (y / 20) = d by
    simp [SimulationDisplay.draw_text, h]
  have hmap : (rustLines d.content).enum.map
      (fun p => addTextRow d.height text (x / 10) (y / 20) p.1 p.2)
      = rustLines d.content := by
    apply List.ext_getElem?
    intro n
    rw [getElem?_enum_map]
    cases hg : (rustLines d.content)[n]? with
    | none => rfl
    | some l =>
      have hlw : l.length = 50 := by
        have h50 := (hrows l (List.getElem?_mem hg)).1
        rw [hw] at h50
        exact h50
      simp only [Option.map_some']
      congr 1
      unfold addTextRow
      split
      · split
        · exact writeFrom_of_ge text l (x / 10 + 1) (by omega)
        · rfl
      · rfl
  unfold MockDisplay.add_text
  rw [hmap, ← hfix]

/-- C7, witness: the theorem applied to the freshly cleared 50×15 grid
and a draw at pixel column 480 (cell column 48, the first one past the
interior). -/
theorem draw_text_out_of_range_no_write_w :
    Tidy ((MockDisplay.new 50 15).clear)
    ∧ ((MockDisplay.new 50 15).clear).width = 50
    ∧ (480 : ℕ) ≤ 480
    ∧ (SimulationDisplay.mk
        ((MockDisplay.new 50 15).clear)).draw_text "overflow".data 480 40
          .white = SimulationDisplay.mk ((MockDisplay.new 50 15).clear) :=
  ⟨by decide, by decide, by decide,
   draw_text_out_of_range_no_write ((MockDisplay.new 50 15).clear)
     (by decide) (by decide) "overflow".data 480 40 .white (by decide)⟩

/-! ### Claim C10 — add_text preserves the grid dimensions -/

/-- C10, counterexample: drawing the text `"\n"` into interior row 1 of
the freshly cleared 50×15 grid embeds a newline into that row; the
stored content then has 16 lines instead of 15, so the grid dimensions
are not preserved for every text. -/
theorem add_text_newline_changes_line_count :
    (rustLines (((MockDisplay.new 50 15).clear).add_text
        "\n".data 0 1).content).length = 16
    ∧ (rustLines ((MockDisplay.new 50 15).clear).content).length = 15 := by
  decide

/-- C10, amended: for every text that contains no newline character,
`add_text` preserves the number of lines of the stored content and the
character count of every line, on any grid whose lines do not end in a
carriage return (true of every state the program's display reaches). -/
theorem add_text_preserves_grid_dims (d : MockDisplay)
    (hcr : ∀ l ∈ rustLines d.content, l[l.length - 1]? ≠ some '\r')
    (text : List Char) (hn : '\n' ∉ text) (x y : ℕ) :
    (rustLines (d.add_text text x y).content).length
      = (rustLines d.content).length
    ∧ ∀ i : ℕ, ((rustLines (d.add_text text x y).content)[i]?).map
        List.length = ((rustLines d.content)[i]?).map List.length := by
  rw [rustLines_add_text d hcr hn x y]
  refine ⟨length_enum_map _ _, fun i => ?_⟩
  rw [getElem?_enum_map]
  cases hg : (rustLines d.content)[i]? <;>
    simp [addTextRow_length]

/-- C10, witness: the dimension-preservation theorem applied to the
freshly cleared 50×15 grid and the newline-free text `"Hi"`. -/
theorem add_text_preserves_grid_dims_w :
    (∀ l ∈ rustLines ((MockDisplay.new 50 15).clear).content,
      l[l.length - 1]? ≠ some '\r')
    ∧ '\n' ∉ "Hi".data
    ∧ ((rustLines (((MockDisplay.new 50 15).clear).add_text
          "Hi".data 3 2).content).length
        = (rustLines ((MockDisplay.new 50 15).clear).content).length
      ∧ ∀ i : ℕ,
          ((rustLines (((MockDisplay.new 50 15).clear).add_text
            "Hi".data 3 2).content)[i]?).map List.length
          = ((rustLines ((MockDisplay.new 50 15).clear).content)[i]?).map
              List.length) :=
  ⟨by decide, by decide,
   add_text_preserves_grid_dims ((MockDisplay.new 50 15).clear)
     (by decide) "Hi".data (by decide) 3 2⟩

/-! ### Claim C3 — cell mapping and clipping of draw_text -/

/-- C3, counterexample: `draw_text "A"` at pixel coordinates (0, 0)
targets character cell (0, 0), which is the top border row; the border
character `'═'` at grid position (row 0, column 1) is overwritten with
`'A'`, so border cells are not protected (only the border columns are:
the row guard `y < self.height` at main.rs line 78 does not exclude the
border rows 0 and height-1). -/
theorem draw_text_overwrites_top_border_row :
    ((gridLines ((SimulationDisplay.mk ((MockDisplay.new 50 15).clear)).draw_text
        "A".data 0 0 .white).mock_display).headD [])[1]? = some 'A'
    ∧ ((gridLines ((MockDisplay.new 50 15).clear)).headD [])[1]?
      = some '═' := by
  decide

/-- C3, amended: on the program's well-formed 50×15 grid and for
newline-free text, `draw_text` targets character cell
(x / 10, y / 20): every row other than row `y / 20` is unchanged, the
left border column 0 and the right border column 49 are never
overwritten in any row, and the characters of `text` land in row
`y / 20` starting at grid column `x / 10 + 1` (interior cell `x / 10`)
as long as they stay left of the right border; but the top and bottom
border rows themselves are not protected and can be drawn into. -/
theorem draw_text_cell_mapping_and_column_clipping (d : MockDisplay)
    (hT : Tidy d) (hw : d.width = 50) (hh : d.height = 15)
    (text : List Char) (hn : '\n' ∉ text) (x y : ℕ) (color : Color) :
    (gridLines ((SimulationDisplay.mk d).draw_text text x y
        color).mock_display).length = 15
    ∧ (∀ i : ℕ, i ≠ y / 20 →
        (gridLines ((SimulationDisplay.mk d).draw_text text x y
          color).mock_display)[i]? = (gridLines d)[i]?)
    ∧ (∀ i : ℕ,
        ((gridLines ((SimulationDisplay.mk d).draw_text text x y
          color).mock_display)[i]?).bind (fun l => l[0]?)
        = ((gridLines d)[i]?).bind (fun l => l[0]?))
    ∧ (∀ i : ℕ,
        ((gridLines ((SimulationDisplay.mk d).draw_text text x y
          color).mock_display)[i]?).bind (fun l => l[49]?)
        = ((gridLines d)[i]?).bind (fun l => l[49]?))
    ∧ (∀ j : ℕ, j < text.length → x / 10 + 1 + j < 49 → y / 20 < 15 →
        ((gridLines ((SimulationDisplay.mk d).draw_text text x y
          color).mock_display)[y / 20]?).bind
            (fun l => l[x / 10 + 1 + j]?) = text[j]?) := by
  obtain ⟨hfix, hlen, hrows⟩ := hT
  have hcr : ∀ l ∈ rustLines d.content, l[l.length - 1]? ≠ some '\r' :=
    fun l h => (hrows l h).2
  unfold gridLines
  have hDL : rustLines ((SimulationDisplay.mk d).draw_text text x y
      color).mock_display.content
      = (rustLines d.content).enum.map
          (fun p => addTextRow d.height text (x / 10) (y / 20) p.1 p.2) :=
    rustLines_add_text d hcr hn (x / 10) (y / 20)
  refine ⟨?_, ?_, ?_, ?_, ?_⟩
  · rw [hDL, length_enum_map, hlen, hh]
  · intro i hi
    rw [hDL, getElem?_enum_map]
    cases hg : (rustLines d.content)[i]? with
    | none => rfl
    | some l =>
      simp only [Option.map_some']
      congr 1
      unfold addTextRow
      rw [if_neg (fun h => hi h.1)]
  · intro i
    rw [hDL, getElem?_enum_map]
    cases hg : (rustLines d.content)[i]? with
    | none => rfl
    | some l =>
      simp only [Option.map_some', Option.some_bind]
      unfold addTextRow
      split
      · split
        · rw [writeFrom_getElem?, if_neg (by omega)]
        · rfl
      · rfl
  · intro i
    rw [hDL, getElem?_enum_map]
    cases hg : (rustLines d.content)[i]? with
    | none => rfl
    | some l =>
      have hlw : l.length = 50 := by
        have h50 := (hrows l (List.getElem?_mem hg)).1
        rw [hw] at h50
        exact h50
      simp only [Option.map_some', Option.some_bind]
      unfold addTextRow
      split
      · split
        · rw [writeFrom_getElem?, if_neg (by omega)]
        · rfl
      · rfl
  · intro j hj1 hj2 hj3
    have hlt : y / 20 < (rustLines d.content).length := by
      rw [hlen, hh]
      exact hj3
    obtain ⟨l, hg⟩ : ∃ l, (rustLines d.content)[y / 20]? = some l :=
      ⟨_, List.getElem?_eq_getElem hlt⟩
    have hlw : l.length = 50 := by
      have h50 := (hrows l (List.getElem?_mem hg)).1
      rw [hw] at h50
      exact h50
    rw [hDL, getElem?_enum_map, hg]
    simp only [Option.map_some', Option.some_bind]
    unfold addTextRow
    rw [if_pos ⟨rfl, by rw [hh]; exact hj3⟩, if_pos (by omega),
      writeFrom_getElem?, if_pos ⟨by omega, by omega, by omega⟩]
    congr 1
    omega

/-- C3, witness: the amended theorem applied to the freshly cleared
50×15 grid, drawing `"ok"` at pixel coordinates (100, 40), i.e. cell
(10, 2). -/
theorem draw_text_cell_mapping_w :
    Tidy ((MockDisplay.new 50 15).clear)
    ∧ '\n' ∉ "ok".data
    ∧ (gridLines ((SimulationDisplay.mk
        ((MockDisplay.new 50 15).clear)).draw_text "ok".data 100 40
          .white).mock_display).length = 15 :=
  ⟨by decide, by decide,
   (draw_text_cell_mapping_and_column_clipping
     ((MockDisplay.new 50 15).clear) (by decide) (by decide) (by decide)
     "ok".data (by decide) 100 40 .white).1⟩

/-! ### Claim C5 — clear always yields the blank bordered frame -/

lemma applyOp_dims (s : SimulationDisplay) (op : DispOp) :
    (applyOp s op).mock_display.width = s.mock_display.width
    ∧ (applyOp s op).mock_display.height = s.mock_display.height := by
  cases op <;> exact ⟨rfl, rfl⟩

lemma applyOps_dims :
    ∀ (ops : List DispOp) (s : SimulationDisplay),
      (applyOps s ops).mock_display.width = s.mock_display.width
      ∧ (applyOps s ops).mock_display.height = s.mock_display.height
  | [], _ => ⟨rfl, rfl⟩
  | op :: ops, s => by
    have h1 := applyOp_dims s op
    have h2 := applyOps_dims ops (applyOp s op)
    exact ⟨h2.1.trans h1.1, h2.2.trans h1.2⟩

/-- C5: after any prior sequence of `clear` and `draw_text` operations
on the simulation backend, `clear` followed by `get_rendered_text`
yields exactly the blank bordered frame — the same string obtained by
clearing a freshly constructed display. `clear` rebuilds the content
from the (draw-invariant) grid dimensions alone (main.rs lines 63-70). -/
theorem clear_idempotent_blank_frame (ops : List DispOp) :
    ((applyOps (SimulationDisplay.mk (MockDisplay.new 50 15))
        ops).clear).get_display_content
      = ((SimulationDisplay.mk (MockDisplay.new 50 15)).clear).get_display_content := by
  have h := applyOps_dims ops (SimulationDisplay.mk (MockDisplay.new 50 15))
  simp only [SimulationDisplay.clear, SimulationDisplay.get_display_content,
    MockDisplay.get_content, MockDisplay.clear, h.1, h.2]

/-! ### Claim C4 — GET /display in the two modes -/

lemma rebuild_ne_nil {ls : List (List Char)} (h : ls ≠ []) :
    rebuild ls ≠ [] := by
  cases ls with
  | nil => exact absurd rfl h
  | cons l ls' => simp [rebuild]

lemma add_text_content_ne (d : MockDisplay) (h : d.content ≠ [])
    (t : List Char) (x y : ℕ) : (d.add_text t x y).content ≠ [] := by
  show rebuild _ ≠ []
  apply rebuild_ne_nil
  intro he
  apply rustLines_ne_nil h
  have hlen := congrArg List.length he
  rw [length_enum_map] at hlen
  exact List.length_eq_zero.1 hlen

lemma clear_content_ne (d : MockDisplay) : d.clear.content ≠ [] := by
  simp [MockDisplay.clear]

lemma foldl_draw_content_ne :
    ∀ (calls : List DrawCall) (s : SimulationDisplay),
      s.mock_display.content ≠ [] →
      ((calls.foldl (fun d c => d.draw_text c.text c.x c.y c.color)
        s).mock_display.content ≠ [])
  | [], _, h => h
  | _ :: cs, _, h =>
    foldl_draw_content_ne cs _ (add_text_content_ne _ h _ _ _)

/-- C4, counterexample: in simulation mode the display starts with an
empty content string (`MockDisplay::new`, main.rs line 57), so a
GET /display served before the first display-refresh tick returns
`mode: "simulation"` with an *empty* `display_content`; moreover, if
the display lock acquisition fails in simulation mode, the handler
falls into the `None` branch and reports `mode: "hardware"`. -/
theorem display_handler_empty_before_first_refresh :
    get_display_handler true
        (some (.simulation (SimulationDisplay.mk (MockDisplay.new 50 15))))
      = ⟨[], "simulation".data⟩
    ∧ (get_display_handler false
        (some (.simulation (SimulationDisplay.mk
          ((MockDisplay.new 50 15).clear))))).mode = "hardware".data := by
  decide

/-- C4, amended: when the display lock is acquired, a simulation-mode
GET /display returns `mode: "simulation"` with the current frame string
— which is empty before the first refresh and non-empty after any
display refresh (`update_display_content` starts with `clear`, and every
draw keeps the content non-empty); a hardware-mode GET /display (or any
request that finds no content string) returns `mode: "hardware"` and the
fixed "Hardware mode - content not available via API" string. -/
theorem display_handler_modes :
    (∀ m : MockDisplay,
      get_display_handler true (some (.simulation (SimulationDisplay.mk m)))
        = ⟨m.content, "simulation".data⟩)
    ∧ (∀ (m : MockDisplay) (sensor : Option SensorData) (u : ℕ)
        (led : Bool),
        (update_display_sim (SimulationDisplay.mk m) sensor u
          led).mock_display.content ≠ [])
    ∧ (∀ lockOk : Bool,
        get_display_handler lockOk (some .hardware)
          = ⟨"Hardware mode - content not available via API".data,
              "hardware".data⟩
        ∧ get_display_handler lockOk none
          = ⟨"Hardware mode - content not available via API".data,
              "hardware".data⟩) := by
  refine ⟨fun m => rfl, fun m sensor u led => ?_, fun lockOk => ?_⟩
  · exact foldl_draw_content_ne _ _ (clear_content_ne m)
  · cases lockOk <;> exact ⟨rfl, rfl⟩

end PiZero
